import Mathlib

/-!
Verification of the pyyogrt binding-generator discovery logic.

This file gives a shallow embedding in Lean 4 of the environment-discovery
code in `generate_bindings.py` of the pyyogrt repository, and proves (or
refutes) the frozen claims about it.

The Python code interacts with the outside world through five effects,
which are modelled as explicit parameters:

* the process environment (`os.environ.get`): `String → Option String`;
* the executable search path (`shutil.which`): `String → Option String`;
* subprocess invocation (`subprocess.check_output`): `List String → SpawnResult`,
  where the result is either captured output, a `CalledProcessError`
  (non-zero exit, which the code catches), or an `OSError` such as
  `FileNotFoundError` (missing executable, which the code does not catch);
* filesystem existence (`os.path.exists`): `String → Bool`;
* path resolution (`pathlib.Path.resolve(strict=True)`): a success-path
  model `String → Option String` with `none` for the caught
  `FileNotFoundError`, and a full model `String → ResolveResult` that also
  covers the exceptions the source does not catch (`RuntimeError` on a
  symlink loop, `PermissionError`), which escape `standardize_paths`.

Fallible Python functions become Lean functions into `Except PyExc _`:
an `Except.error` value is an exception that escapes the function.
Python `set` becomes `Finset String`.
-/

/-- Python exceptions that the discovery code can raise or catch.
`osError` stands for `OSError` and its subclass `FileNotFoundError`. -/
inductive PyExc where
  | calledProcessError
  | osError
  | indexError
  | runtimeError (msg : String)
deriving DecidableEq, Repr

/-- Outcome of `subprocess.check_output`: captured text on success,
`CalledProcessError` on non-zero exit, or `OSError`/`FileNotFoundError`
when the executable cannot be run at all. -/
inductive SpawnResult where
  | ok (out : String)
  | calledProcessError
  | osError
deriving DecidableEq, Repr

deriving instance DecidableEq for Except

/-- Model of the process environment (`os.environ.get`). -/
abbrev Env := String → Option String

/-- Model of `shutil.which`: the resolved executable path, or `none`. -/
abbrev Which := String → Option String

/-- Model of `subprocess.check_output` on an argument vector. -/
abbrev Run := List String → SpawnResult

/-- Model of `os.path.exists`. -/
abbrev Fs := String → Bool

/-- Success-path model of `pathlib.Path.resolve(strict=True)`: `some` of
the absolute, symlink-resolved path, or `none` when resolution raises the
`FileNotFoundError` that `standardize_paths` catches. This fragment is
enough for the claims about successful discovery runs; the full exception
behavior — including the uncaught `RuntimeError` on a symlink loop and
`PermissionError`/`OSError` on an unreadable component — is modelled
separately by `ResolveFull` below. -/
abbrev Resolve := String → Option String

/-! ## Python string primitives

Python `str` operations are embedded structurally over `List Char` so that
every concrete computation reduces in the kernel. -/

/-- The whitespace characters stripped by Python `str.strip()`. -/
def pyIsSpace (c : Char) : Bool :=
  c = ' ' ∨ c = '\t' ∨ c = '\n' ∨ c = '\r' ∨ c = '\x0b' ∨ c = '\x0c'

/-- Python `str.strip()`: remove leading and trailing whitespace. -/
def pyStrip (s : String) : String :=
  String.mk (((s.data.dropWhile pyIsSpace).reverse.dropWhile pyIsSpace).reverse)

/-- Python `str.startswith(pre)`. -/
def pyStartsWith (pre s : String) : Bool :=
  pre.data.isPrefixOf s.data

/-- Python `str.endswith(suf)`. -/
def pyEndsWith (suf s : String) : Bool :=
  pre.data.isPrefixOf s.data.reverse where pre : String := String.mk suf.data.reverse

/-- Split a character list at every occurrence of a single character,
keeping empty segments: the embedding of Python `str.split(sep)` for a
one-character separator (`":"`, `"\n"`). -/
def splitOnChar (sep : Char) : List Char → List (List Char)
  | [] => [[]]
  | c :: rest =>
    if c = sep then [] :: splitOnChar sep rest
    else
      match splitOnChar sep rest with
      | g :: gs => (c :: g) :: gs
      | [] => [[c]]

/-- Python `str.split(":")`. -/
def pySplitColon (s : String) : List String :=
  (splitOnChar ':' s.data).map String.mk

/-- Python `str.split("\n")`. -/
def pySplitLines (s : String) : List String :=
  (splitOnChar '\n' s.data).map String.mk

/-- Split at every (leftmost, non-overlapping) occurrence of the
four-character separator `" => "`: the embedding of
Python `str.split(" => ")` as used on `ldconfig -p` lines. -/
def splitOnArrow : List Char → List (List Char)
  | ' ' :: '=' :: '>' :: ' ' :: rest => [] :: splitOnArrow rest
  | c :: rest =>
    match splitOnArrow rest with
    | g :: gs => (c :: g) :: gs
    | [] => [[c]]
  | [] => [[]]

/-- Python `str.split(" => ")`. -/
def pySplitArrow (s : String) : List String :=
  (splitOnArrow s.data).map String.mk

/-- Python truthiness of an optional string (`if s:`): `False` for `None`
and for the empty string. -/
def pyTruthy : Option String → Bool
  | some s => s ≠ ""
  | none => false

/-- Embedding of `os.path.join a b` in the two-argument form used by the code. -/
def os_path_join (a b : String) : String :=
  if pyStartsWith "/" b then b
  else if a = "" then b
  else if pyEndsWith "/" a then a ++ b
  else a ++ "/" ++ b

/-! ## The discovery functions, embedded from `generate_bindings.py` -/

/-- Source `split_paths`: split a colon-separated list of paths into a list. -/
def split_paths (paths : String) : List String :=
  pySplitColon paths

/-- Source `standardize_paths`: convert a set of paths to absolute form and
resolve symbolic links, via `Path.resolve(strict=True)`; a path whose
resolution raises `FileNotFoundError` is skipped. -/
def standardize_paths (resolve : Resolve) (paths : Finset String) : Finset String :=
  paths.biUnion (fun p => (resolve p).toFinset)

/-- The body of the `_get_from_env` helpers in `get_env_include_paths` and
`get_env_library_paths`: the split entries of one environment variable,
or nothing when it is unset or empty. -/
def envSplitPaths (env : Env) (name : String) : Finset String :=
  match env name with
  | some s => if s = "" then ∅ else (split_paths s).toFinset
  | none => ∅

/-- Source `get_env_include_paths`: union of the split values of
`YOGRT_INCLUDE_PATH`, `CPATH` and `C_INCLUDE_PATH`. -/
def get_env_include_paths (env : Env) : Finset String :=
  envSplitPaths env "YOGRT_INCLUDE_PATH" ∪ envSplitPaths env "CPATH"
    ∪ envSplitPaths env "C_INCLUDE_PATH"

/-- Source `get_env_library_paths`: union of the split values of the variables the
code actually reads, `YOGRT_LIBRARY_PATH` and `LIBRARY_PATH` (its own
docstring instead names `YOGRT_LIB_PATH`). -/
def get_env_library_paths (env : Env) : Finset String :=
  envSplitPaths env "YOGRT_LIBRARY_PATH" ∪ envSplitPaths env "LIBRARY_PATH"

/-- One step of the `if compiler: return compiler` cascade in
`determine_compiler`: use the candidate when it is truthy, otherwise
continue. -/
def orTruthy (c : Option String) (k : Unit → Option String) : Option String :=
  match c with
  | some s => if s = "" then k () else some s
  | none => k ()

/-- Source `determine_compiler`: the value of `CC` if truthy, else the first of
`cc`, `gcc`, `clang` found by `shutil.which`, else `none`.
Never raises. -/
def determine_compiler (env : Env) (which : Which) : Option String :=
  orTruthy (env "CC") fun _ =>
  orTruthy (which "cc") fun _ =>
  orTruthy (which "gcc") fun _ =>
  orTruthy (which "clang") fun _ => none

/-- Source `determine_preprocessor`: run `compiler -print-prog-name=cpp` and strip
the output; `CalledProcessError` is caught and yields `none`, but an
`OSError` (missing executable) is not caught and propagates. -/
def determine_preprocessor (run : Run) (compiler : String) :
    Except PyExc (Option String) :=
  match run [compiler, "-print-prog-name=cpp"] with
  | .ok out => .ok (some (pyStrip out))
  | .calledProcessError => .ok none
  | .osError => .error .osError

/-- The parsing tail of `get_compiler_include_paths`: locate the two marker
lines with `list.index` (first occurrence; absence caught and mapped to the
empty set), slice strictly between them, and strip each line. -/
def parse_include_lines (lines : List String) : Finset String :=
  match lines.indexOf? "#include <...> search starts here:" with
  | none => ∅
  | some i =>
    match lines.indexOf? "End of search list." with
    | none => ∅
    | some j => (((lines.take j).drop (i + 1)).map pyStrip).toFinset

/-- Source `get_compiler_include_paths`: determine a compiler and preprocessor,
run `cpp -v`, and parse the include search list from its output. A missing
compiler or preprocessor, a `CalledProcessError`, or absent marker lines
yield the empty set; an `OSError` propagates. -/
def get_compiler_include_paths (env : Env) (which : Which) (run : Run) :
    Except PyExc (Finset String) :=
  match determine_compiler env which with
  | none => .ok ∅
  | some compiler =>
    if compiler = "" then .ok ∅ else
    match determine_preprocessor run compiler with
    | .error e => .error e
    | .ok none => .ok ∅
    | .ok (some cpp) =>
      if cpp = "" then .ok ∅ else
      match run [cpp, "-v"] with
      | .calledProcessError => .ok ∅
      | .osError => .error .osError
      | .ok output => .ok (parse_include_lines (pySplitLines output))

/-- The parsing loop of `get_compiler_library_paths`: collect the split
tails of every line starting with `LIBRARY_PATH=`. -/
def parse_library_path_lines (lines : List String) : Finset String :=
  lines.foldl
    (fun s l =>
      if pyStartsWith "LIBRARY_PATH=" l then
        s ∪ (split_paths (String.mk (l.data.drop 13))).toFinset
      else s)
    ∅

/-- Source `get_compiler_library_paths`: same probe as
`get_compiler_include_paths`, but collecting `LIBRARY_PATH=` lines from the
`cpp -v` output. -/
def get_compiler_library_paths (env : Env) (which : Which) (run : Run) :
    Except PyExc (Finset String) :=
  match determine_compiler env which with
  | none => .ok ∅
  | some compiler =>
    if compiler = "" then .ok ∅ else
    match determine_preprocessor run compiler with
    | .error e => .error e
    | .ok none => .ok ∅
    | .ok (some cpp) =>
      if cpp = "" then .ok ∅ else
      match run [cpp, "-v"] with
      | .calledProcessError => .ok ∅
      | .osError => .error .osError
      | .ok output => .ok (parse_library_path_lines (pySplitLines output))

/-- The per-line step of `get_ldconfig_library_paths`: strip the line; a
line starting with the exact name `libyogrt.so ` contributes the element
after `" => "` — and raises `IndexError` if the separator is absent
(`line.split(' => ')[1]`) — while any other line contributes nothing. -/
def ldconfig_line_path (line : String) : Except PyExc (Option String) :=
  let l := pyStrip line
  if pyStartsWith "libyogrt.so " l then
    match (pySplitArrow l).get? 1 with
    | some p => .ok (some p)
    | none => .error .indexError
  else .ok none

/-- The parsing loop of `get_ldconfig_library_paths` over the split output
lines; an `IndexError` from any line propagates. -/
def parse_ldconfig_lines : List String → Except PyExc (Finset String)
  | [] => .ok ∅
  | line :: rest =>
    match ldconfig_line_path line with
    | .error e => .error e
    | .ok none => parse_ldconfig_lines rest
    | .ok (some p) =>
      match parse_ldconfig_lines rest with
      | .error e => .error e
      | .ok s => .ok (insert p s)

/-- Source `get_ldconfig_library_paths`: run `ldconfig -p` and scan its output for
`libyogrt.so`. `CalledProcessError` is caught and yields the empty set; an
`OSError` (no `ldconfig` executable) propagates, as does an `IndexError`
from a malformed matching line. -/
def get_ldconfig_library_paths (run : Run) : Except PyExc (Finset String) :=
  match run ["ldconfig", "-p"] with
  | .ok output => parse_ldconfig_lines (pySplitLines output)
  | .calledProcessError => .ok ∅
  | .osError => .error .osError

/-- Python iterates a `set` in an unspecified order; the embedding
abstracts that order as an enumeration function turning a set into the
list of its elements in the order the loop visits them. -/
abbrev SetOrder := Finset String → List String

/-- The function `order` is a valid iteration order for the set `s`: it
visits exactly the elements of `s`. -/
def EnumeratesSet (order : SetOrder) (s : Finset String) : Prop :=
  (order s).toFinset = s

/-- Full outcome model of `pathlib.Path.resolve(strict=True)`: success, the
`FileNotFoundError` that `standardize_paths` catches, or any other
exception — `RuntimeError` on a symlink loop, `PermissionError`/`OSError`
on an unreadable component — which no handler in the source catches. -/
inductive ResolveResult where
  | ok (p : String)
  | fileNotFound
  | raised (e : PyExc)
deriving DecidableEq, Repr

/-- Model of `pathlib.Path.resolve(strict=True)` with its full exception
behavior. -/
abbrev ResolveFull := String → ResolveResult

/-- Restriction of a full resolver to the `Option`-valued success fragment
(`some` on success, `none` otherwise) used by the `Resolve` model. -/
def resolveOpt (resolve : ResolveFull) : Resolve := fun p =>
  match resolve p with
  | .ok q => some q
  | _ => none

/-- The loop of `standardize_paths` over the entries in iteration order,
with the full exception behavior of `Path.resolve(strict=True)`: a
`FileNotFoundError` is caught and the entry skipped (`continue`), a
successful resolution is added to the set, and any other exception escapes
the loop immediately. -/
def standardize_paths_steps (resolve : ResolveFull) :
    List String → Except PyExc (Finset String)
  | [] => .ok ∅
  | p :: rest =>
    match resolve p with
    | .raised e => .error e
    | .fileNotFound => standardize_paths_steps resolve rest
    | .ok q =>
      match standardize_paths_steps resolve rest with
      | .error e => .error e
      | .ok s => .ok (insert q s)

/-- Source `standardize_paths` embedded with the full exception behavior of
`Path.resolve(strict=True)`: the `try`/`except FileNotFoundError:` catches
only that error, so any other exception raised while resolving an entry
propagates out of the function. -/
def standardize_paths_exc (resolve : ResolveFull) (order : SetOrder)
    (paths : Finset String) : Except PyExc (Finset String) :=
  standardize_paths_steps resolve (order paths)

/-- The terminal loop of `find_yogrt_h` over the merged, normalized include
set: return `<dir>/yogrt.h` for the first directory (in iteration order)
containing `yogrt.h`, or raise `RuntimeError('Could not find yogrt.h')`. -/
def header_search (fs : Fs) (order : SetOrder) (paths : Finset String) :
    Except PyExc String :=
  match (order paths).find? (fun d => fs (os_path_join d "yogrt.h")) with
  | some d => .ok (os_path_join d "yogrt.h")
  | none => .error (.runtimeError "Could not find yogrt.h")

/-- Source `find_yogrt_h`: merge the environment and compiler include paths with
the two standard include directories, normalize, and search for
`yogrt.h`. -/
def find_yogrt_h (fs : Fs) (resolve : Resolve) (env : Env) (which : Which)
    (run : Run) (order : SetOrder) : Except PyExc String :=
  match get_compiler_include_paths env which run with
  | .error e => .error e
  | .ok cPaths =>
    header_search fs order
      (standardize_paths resolve
        (insert "/usr/include" (insert "/usr/local/include"
          (get_env_include_paths env ∪ cPaths))))

/-- The terminal filter of `find_yogrt_lib` over the merged, normalized
library set: keep the directories whose `libyogrt.so` entry exists, and
raise `RuntimeError('Could not find libyogrt.so')` when none does. -/
def lib_search (fs : Fs) (paths : Finset String) : Except PyExc (Finset String) :=
  let m := paths.filter (fun d => fs (os_path_join d "libyogrt.so"))
  if m = ∅ then .error (.runtimeError "Could not find libyogrt.so") else .ok m

/-- Source `find_yogrt_lib`: merge the environment, compiler and ldconfig library
paths with the six standard library directories, normalize, and filter to
the directories containing `libyogrt.so`. -/
def find_yogrt_lib (fs : Fs) (resolve : Resolve) (env : Env) (which : Which)
    (run : Run) : Except PyExc (Finset String) :=
  match get_compiler_library_paths env which run with
  | .error e => .error e
  | .ok cl =>
    match get_ldconfig_library_paths run with
    | .error e => .error e
    | .ok ld =>
      lib_search fs
        (standardize_paths resolve
          (insert "/lib" (insert "/lib64" (insert "/usr/lib"
            (insert "/usr/lib64" (insert "/usr/local/lib"
              (insert "/usr/local/lib64"
                (get_env_library_paths env ∪ cl ∪ ld))))))))

/-! ## Helper lemmas -/

lemma orTruthy_some (c : String) (k : Unit → Option String) (h : c ≠ "") :
    orTruthy (some c) k = some c := by
  simp [orTruthy, h]

lemma orTruthy_falsy (c : Option String) (k : Unit → Option String)
    (h : pyTruthy c = false) : orTruthy c k = k () := by
  cases c with
  | none => rfl
  | some s =>
    simp only [pyTruthy, ne_eq, decide_not, Bool.not_eq_false', decide_eq_true_eq] at h
    simp [orTruthy, h]

lemma ldconfig_line_path_error (l : String) (e : PyExc)
    (h : ldconfig_line_path l = .error e) : e = .indexError := by
  unfold ldconfig_line_path at h
  by_cases hs : pyStartsWith "libyogrt.so " (pyStrip l) = true
  · simp only [hs, if_true] at h
    cases hg : (pySplitArrow (pyStrip l)).get? 1 with
    | some p => rw [hg] at h; exact absurd h (by simp)
    | none => rw [hg] at h; exact (Except.error.inj h).symm
  · simp only [Bool.not_eq_true] at hs
    simp [hs] at h

lemma parse_ldconfig_lines_error (lines : List String) (e : PyExc)
    (h : parse_ldconfig_lines lines = .error e) : e = .indexError := by
  induction lines with
  | nil => exact absurd h (by simp [parse_ldconfig_lines])
  | cons line rest ih =>
    unfold parse_ldconfig_lines at h
    cases hl : ldconfig_line_path line with
    | error e2 =>
      rw [hl] at h
      cases Except.error.inj h
      exact ldconfig_line_path_error line e hl
    | ok o =>
      rw [hl] at h
      cases o with
      | none => exact ih h
      | some p =>
        cases hr : parse_ldconfig_lines rest with
        | error e2 => rw [hr] at h; cases Except.error.inj h; exact ih hr
        | ok s => rw [hr] at h; exact absurd h (by simp)

/-! ## Claims -/

/-- C5: compiler resolution follows strict first-match priority: a truthy
`CC` value is returned regardless of which compilers are installed;
otherwise the first of `cc`, `gcc`, `clang` found on the search path is
returned; when nothing is found the result is `none` and no error is
raised. -/
theorem C5_compiler_resolution (env : Env) (which : Which) :
    (∀ c, env "CC" = some c → c ≠ "" → determine_compiler env which = some c) ∧
    (pyTruthy (env "CC") = false →
      (∀ p, which "cc" = some p → p ≠ "" → determine_compiler env which = some p) ∧
      (pyTruthy (which "cc") = false →
        (∀ p, which "gcc" = some p → p ≠ "" → determine_compiler env which = some p) ∧
        (pyTruthy (which "gcc") = false →
          (∀ p, which "clang" = some p → p ≠ "" →
            determine_compiler env which = some p) ∧
          (pyTruthy (which "clang") = false →
            determine_compiler env which = none)))) := by
  refine ⟨fun c hc hne => ?_, fun h1 => ⟨fun p hp hne => ?_, fun h2 => ⟨fun p hp hne => ?_,
    fun h3 => ⟨fun p hp hne => ?_, fun h4 => ?_⟩⟩⟩⟩ <;>
    unfold determine_compiler
  · rw [hc, orTruthy_some c _ hne]
  · rw [orTruthy_falsy _ _ h1, hp, orTruthy_some p _ hne]
  · rw [orTruthy_falsy _ _ h1, orTruthy_falsy _ _ h2, hp, orTruthy_some p _ hne]
  · rw [orTruthy_falsy _ _ h1, orTruthy_falsy _ _ h2, orTruthy_falsy _ _ h3, hp,
      orTruthy_some p _ hne]
  · rw [orTruthy_falsy _ _ h1, orTruthy_falsy _ _ h2, orTruthy_falsy _ _ h3,
      orTruthy_falsy _ _ h4]

/-- Witness for C5 at a concrete environment: with `CC=/my/cc` set, the
resolved compiler is `/my/cc` even though `which` finds `gcc`. -/
theorem C5_compiler_resolution_witness :
    determine_compiler (fun n => if n = "CC" then some "/my/cc" else none)
      (fun n => if n = "gcc" then some "/usr/bin/gcc" else none) = some "/my/cc" :=
  (C5_compiler_resolution (fun n => if n = "CC" then some "/my/cc" else none)
    (fun n => if n = "gcc" then some "/usr/bin/gcc" else none)).1
    "/my/cc" (by decide) (by decide)

/-- C2 (code bug): the environment source for library paths reads
`YOGRT_LIBRARY_PATH`, not the `YOGRT_LIB_PATH` named by its own docstring
and by the spec: with only `YOGRT_LIB_PATH` set the function contributes
nothing, while the same value under `YOGRT_LIBRARY_PATH` is included. -/
theorem C2_env_library_variable_name :
    get_env_library_paths
      (fun n => if n = "YOGRT_LIB_PATH" then some "/opt/yogrt/lib" else none) = ∅ ∧
    get_env_library_paths
      (fun n => if n = "YOGRT_LIBRARY_PATH" then some "/opt/yogrt/lib" else none) =
      {"/opt/yogrt/lib"} := by
  constructor <;> decide

/-- C7: the dynamic-linker cache parser matches only trimmed lines that
begin with the exact name `libyogrt.so ` (trailing space): any other line
contributes nothing, a versioned `libyogrt.so.1` line contributes nothing,
and an exact-name line contributes the path after the `" => "` separator. -/
theorem C7_ldconfig_exact_name :
    (∀ l, pyStartsWith "libyogrt.so " (pyStrip l) = false →
      ldconfig_line_path l = .ok none) ∧
    ldconfig_line_path "libyogrt.so.1 => /opt/lib/libyogrt.so.1" = .ok none ∧
    ldconfig_line_path "libyogrt.so => /opt/lib/libyogrt.so" =
      .ok (some "/opt/lib/libyogrt.so") ∧
    get_ldconfig_library_paths
      (fun c => if c = ["ldconfig", "-p"] then
        .ok "\tlibyogrt.so.1 => /opt/lib/libyogrt.so.1\n\tlibyogrt.so => /opt/lib/libyogrt.so"
      else .osError) = .ok {"/opt/lib/libyogrt.so"} := by
  refine ⟨fun l hl => ?_, by decide, by decide, by decide⟩
  unfold ldconfig_line_path
  simp [hl]

/-- Witness for C7: a line not starting with the exact base name
contributes nothing. -/
theorem C7_ldconfig_exact_name_witness :
    ldconfig_line_path "libc.so.6 => /lib64/libc.so.6" = .ok none :=
  C7_ldconfig_exact_name.1 "libc.so.6 => /lib64/libc.so.6" (by decide)

lemma mem_standardize_paths (resolve : Resolve) (P : Finset String) (q : String) :
    q ∈ standardize_paths resolve P ↔ ∃ p ∈ P, resolve p = some q := by
  simp only [standardize_paths, Finset.mem_biUnion, Option.mem_toFinset, Option.mem_def]

lemma resolveOpt_eq_some (resolve : ResolveFull) (p q : String) :
    resolveOpt resolve p = some q ↔ resolve p = .ok q := by
  unfold resolveOpt
  cases hr : resolve p <;> simp

lemma standardize_paths_insert (r : Resolve) (p : String) (S : Finset String) :
    standardize_paths r (insert p S) = (r p).toFinset ∪ standardize_paths r S := by
  unfold standardize_paths
  exact Finset.biUnion_insert ..

lemma standardize_paths_steps_ok (resolve : ResolveFull) (l : List String)
    (h : ∀ p ∈ l, ∀ e, resolve p ≠ .raised e) :
    standardize_paths_steps resolve l =
      .ok (standardize_paths (resolveOpt resolve) l.toFinset) := by
  induction l with
  | nil => simp [standardize_paths_steps, standardize_paths]
  | cons p rest ih =>
    have hstep := ih (fun p2 hp2 e => h p2 (List.mem_cons_of_mem p hp2) e)
    cases hr : resolve p with
    | raised e => exact absurd hr (h p (List.mem_cons_self p rest) e)
    | fileNotFound =>
      have hopt : resolveOpt resolve p = none := by
        unfold resolveOpt
        rw [hr]
      simp only [standardize_paths_steps, hr]
      rw [hstep, List.toFinset_cons, standardize_paths_insert, hopt]
      simp
    | ok q =>
      have hopt : resolveOpt resolve p = some q := by
        unfold resolveOpt
        rw [hr]
      simp only [standardize_paths_steps, hr, hstep]
      rw [List.toFinset_cons, standardize_paths_insert, hopt]
      simp [Finset.insert_eq]

lemma standardize_paths_steps_error (resolve : ResolveFull) (l : List String) :
    (∃ e, standardize_paths_steps resolve l = .error e) ↔
      ∃ p ∈ l, ∃ e, resolve p = .raised e := by
  induction l with
  | nil => simp [standardize_paths_steps]
  | cons p rest ih =>
    cases hr : resolve p with
    | raised e =>
      simp only [standardize_paths_steps, hr]
      exact ⟨fun _ => ⟨p, List.mem_cons_self p rest, e, hr⟩, fun _ => ⟨e, rfl⟩⟩
    | fileNotFound =>
      simp only [standardize_paths_steps, hr]
      rw [ih]
      constructor
      · rintro ⟨p2, hp2, he⟩
        exact ⟨p2, List.mem_cons_of_mem p hp2, he⟩
      · rintro ⟨p2, hp2, e, he⟩
        rcases List.mem_cons.1 hp2 with h1 | h1
        · subst h1
          rw [hr] at he
          exact absurd he (fun hc => ResolveResult.noConfusion hc)
        · exact ⟨p2, h1, e, he⟩
    | ok q =>
      simp only [standardize_paths_steps, hr]
      cases hsr : standardize_paths_steps resolve rest with
      | error e2 =>
        simp only [hsr]
        constructor
        · intro _
          obtain ⟨p2, hp2, he⟩ := ih.1 ⟨e2, hsr⟩
          exact ⟨p2, List.mem_cons_of_mem p hp2, he⟩
        · intro _
          exact ⟨e2, rfl⟩
      | ok s =>
        simp only [hsr]
        constructor
        · rintro ⟨e, he⟩
          exact absurd he (fun hc => Except.noConfusion hc)
        · rintro ⟨p2, hp2, e, he⟩
          rcases List.mem_cons.1 hp2 with h1 | h1
          · subst h1
            rw [hr] at he
            exact absurd he (fun hc => ResolveResult.noConfusion hc)
          · obtain ⟨e2, he2⟩ := ih.2 ⟨p2, h1, e, he⟩
            rw [hsr] at he2
            exact absurd he2 (fun hc => Except.noConfusion hc)

/-- C8 counterexample: normalization can raise. `Path.resolve(strict=True)`
raises `RuntimeError` on a symlink loop (and `PermissionError` on an
unreadable component), which the source's `except FileNotFoundError:` does
not catch, so an entry like `/loop` is not silently dropped — the
exception escapes `standardize_paths` (here under a valid enumeration of
the one-element set). -/
theorem C8_normalization_raises :
    EnumeratesSet (fun _ => ["/loop"]) {"/loop"} ∧
    standardize_paths_exc
      (fun p => if p = "/loop" then
        ResolveResult.raised (.runtimeError "Symlink loop from /loop")
      else ResolveResult.fileNotFound)
      (fun _ => ["/loop"]) {"/loop"} =
      .error (.runtimeError "Symlink loop from /loop") := by
  exact ⟨by unfold EnumeratesSet; decide, by decide⟩

/-- C8 as amended: over the full resolver model, the set of successfully
resolved entries is exactly the drop-semantics set, each of its elements
is a resolution fixed point (absolute and symlink-free under the model
hypotheses on `pathlib.Path.resolve`), and when no entry raises an
uncaught exception normalization succeeds and is idempotent — normalizing
the result again, under any enumeration, returns it unchanged. However,
normalization is not exception-free: it raises exactly when some entry's
resolution raises anything other than the caught `FileNotFoundError`. -/
theorem C8_standardize_corrected (resolve : ResolveFull) (order order2 : SetOrder)
    (paths : Finset String)
    (horder : EnumeratesSet order paths)
    (hfix : ∀ p q, resolve p = .ok q → resolve q = .ok q)
    (habs : ∀ p q, resolve p = .ok q → pyStartsWith "/" q = true)
    (horder2 : EnumeratesSet order2 (standardize_paths (resolveOpt resolve) paths)) :
    (∀ q, q ∈ standardize_paths (resolveOpt resolve) paths ↔
      ∃ p ∈ paths, resolve p = .ok q) ∧
    (∀ q ∈ standardize_paths (resolveOpt resolve) paths,
      resolve q = .ok q ∧ pyStartsWith "/" q = true) ∧
    ((∀ p ∈ paths, ∀ e, resolve p ≠ .raised e) →
      standardize_paths_exc resolve order paths =
        .ok (standardize_paths (resolveOpt resolve) paths) ∧
      standardize_paths_exc resolve order2
          (standardize_paths (resolveOpt resolve) paths) =
        .ok (standardize_paths (resolveOpt resolve) paths)) ∧
    ((∃ e, standardize_paths_exc resolve order paths = .error e) ↔
      ∃ p ∈ paths, ∃ e, resolve p = .raised e) := by
  have hmemQ : ∀ q, q ∈ standardize_paths (resolveOpt resolve) paths ↔
      ∃ p ∈ paths, resolve p = .ok q := by
    intro q
    rw [mem_standardize_paths]
    constructor
    · rintro ⟨p, hp, h⟩
      exact ⟨p, hp, (resolveOpt_eq_some resolve p q).1 h⟩
    · rintro ⟨p, hp, h⟩
      exact ⟨p, hp, (resolveOpt_eq_some resolve p q).2 h⟩
  have hel : ∀ q ∈ standardize_paths (resolveOpt resolve) paths,
      resolve q = .ok q ∧ pyStartsWith "/" q = true := by
    intro q hq
    obtain ⟨p, _, hp⟩ := (hmemQ q).1 hq
    exact ⟨hfix p q hp, habs p q hp⟩
  have hordmem : ∀ x, x ∈ order paths ↔ x ∈ paths := by
    intro x
    rw [← List.mem_toFinset, horder]
  have hordmem2 : ∀ x, x ∈ order2 (standardize_paths (resolveOpt resolve) paths) ↔
      x ∈ standardize_paths (resolveOpt resolve) paths := by
    intro x
    rw [← List.mem_toFinset, horder2]
  refine ⟨hmemQ, hel, fun hnr => ⟨?_, ?_⟩, ?_⟩
  · unfold standardize_paths_exc
    rw [standardize_paths_steps_ok resolve (order paths)
      (fun p hp e => hnr p ((hordmem p).1 hp) e), horder]
  · unfold standardize_paths_exc
    have hnr2 : ∀ p ∈ order2 (standardize_paths (resolveOpt resolve) paths),
        ∀ e, resolve p ≠ .raised e := by
      intro p hp e hbad
      have hok := (hel p ((hordmem2 p).1 hp)).1
      rw [hok] at hbad
      exact ResolveResult.noConfusion hbad
    rw [standardize_paths_steps_ok resolve _ hnr2, horder2]
    congr 1
    apply Finset.ext
    intro q
    rw [mem_standardize_paths]
    constructor
    · rintro ⟨r, hr, hrq⟩
      have hok : resolveOpt resolve r = some r :=
        (resolveOpt_eq_some resolve r r).2 (hel r hr).1
      rw [hok] at hrq
      have hrq2 := Option.some.inj hrq
      rw [← hrq2]
      exact hr
    · intro hq
      exact ⟨q, hq, (resolveOpt_eq_some resolve q q).2 (hel q hq).1⟩
  · unfold standardize_paths_exc
    rw [standardize_paths_steps_error]
    constructor
    · rintro ⟨p, hp, he⟩
      exact ⟨p, (hordmem p).1 hp, he⟩
    · rintro ⟨p, hp, he⟩
      exact ⟨p, (hordmem p).2 hp, he⟩

/-- Witness for the amended C8 at a concrete raise-free resolver: the
exception-aware normalization succeeds with the drop-semantics set, and
normalizing that result again returns it unchanged. -/
theorem C8_standardize_corrected_witness :
    standardize_paths_exc (fun _ => ResolveResult.ok "/r") (fun _ => ["x"]) {"x"} =
      .ok (standardize_paths (resolveOpt (fun _ => ResolveResult.ok "/r")) {"x"}) ∧
    standardize_paths_exc (fun _ => ResolveResult.ok "/r") (fun _ => ["/r"])
        (standardize_paths (resolveOpt (fun _ => ResolveResult.ok "/r")) {"x"}) =
      .ok (standardize_paths (resolveOpt (fun _ => ResolveResult.ok "/r")) {"x"}) :=
  (C8_standardize_corrected (fun _ => ResolveResult.ok "/r") (fun _ => ["x"])
    (fun _ => ["/r"]) {"x"}
    (by unfold EnumeratesSet; decide)
    (fun _ _ h => h)
    (fun _ q h => by rw [← ResolveResult.ok.inj h]; decide)
    (by unfold EnumeratesSet; decide)).2.2.1
    (fun _ _ _ h => ResolveResult.noConfusion h)

/-- C9 (implicit): an empty segment in a colon-separated environment path
list yields an empty-string entry, and — since `Path('').resolve()` yields
the current working directory, modelled by the hypothesis on `resolve` —
normalization turns it into the current working directory instead of
dropping it, so the working directory silently joins the include search
set. -/
theorem C9_empty_segment_is_cwd (env : Env) (resolve : Resolve) (cwd s : String)
    (hs : env "CPATH" = some s) (hne : s ≠ "") (hempty : "" ∈ split_paths s)
    (hcwd : resolve "" = some cwd) :
    split_paths "/a:" = ["/a", ""] ∧
    split_paths ":/a" = ["", "/a"] ∧
    split_paths "/a::/b" = ["/a", "", "/b"] ∧
    "" ∈ get_env_include_paths env ∧
    cwd ∈ standardize_paths resolve (get_env_include_paths env) := by
  have hin : "" ∈ get_env_include_paths env := by
    unfold get_env_include_paths
    rw [Finset.mem_union, Finset.mem_union]
    left; right
    unfold envSplitPaths
    rw [hs]
    simp only [hne, if_false, List.mem_toFinset]
    exact hempty
  exact ⟨by decide, by decide, by decide, hin,
    (mem_standardize_paths resolve _ cwd).2 ⟨"", hin, hcwd⟩⟩

/-- Witness for C9 at `CPATH=/a:` with the working directory `/cwd`. -/
theorem C9_empty_segment_is_cwd_witness :
    "" ∈ get_env_include_paths (fun n => if n = "CPATH" then some "/a:" else none) ∧
    "/cwd" ∈ standardize_paths (fun p => if p = "" then some "/cwd" else none)
      (get_env_include_paths (fun n => if n = "CPATH" then some "/a:" else none)) :=
  ⟨(C9_empty_segment_is_cwd (fun n => if n = "CPATH" then some "/a:" else none)
      (fun p => if p = "" then some "/cwd" else none) "/cwd" "/a:"
      rfl (by decide) (by decide) rfl).2.2.2.1,
   (C9_empty_segment_is_cwd (fun n => if n = "CPATH" then some "/a:" else none)
      (fun p => if p = "" then some "/cwd" else none) "/cwd" "/a:"
      rfl (by decide) (by decide) rfl).2.2.2.2⟩

lemma indexOf?_append_cons (x : String) (pre rest : List String) (h : x ∉ pre) :
    (pre ++ x :: rest).indexOf? x = some pre.length := by
  induction pre with
  | nil => simp [List.indexOf?_cons]
  | cons a pre ih =>
    have hax : (a == x) = false := by
      simp only [beq_eq_false_iff_ne, ne_eq]
      intro he
      exact h (he ▸ List.mem_cons_self a pre)
    rw [List.cons_append, List.indexOf?_cons, hax]
    simp [ih (fun hx => h (List.mem_cons_of_mem a hx))]

lemma indexOf?_eq_none_of_not_mem (x : String) (l : List String) (h : x ∉ l) :
    l.indexOf? x = none := by
  rw [List.indexOf?_eq_none_iff]
  intro y hy
  simp only [beq_iff_eq]
  intro he
  exact h (he ▸ hy)

lemma parse_include_lines_eq (lines : List String) (i j : Nat)
    (h1 : lines.indexOf? "#include <...> search starts here:" = some i)
    (h2 : lines.indexOf? "End of search list." = some j) :
    parse_include_lines lines =
      (((lines.take j).drop (i + 1)).map pyStrip).toFinset := by
  unfold parse_include_lines
  rw [h1, h2]

/-- C6: include-path extraction from a verbose preprocessor trace returns
exactly the trimmed lines strictly between the first occurrence of the
marker line `#include <...> search starts here:` and the first occurrence
of the marker line `End of search list.`; when either marker is absent it
returns the empty set instead of raising. -/
theorem C6_include_path_extraction (pre mid post lines : List String) :
    ("#include <...> search starts here:" ∉ pre →
      "End of search list." ∉ pre → "End of search list." ∉ mid →
      parse_include_lines (pre ++ "#include <...> search starts here:" ::
        (mid ++ "End of search list." :: post)) = (mid.map pyStrip).toFinset) ∧
    ("#include <...> search starts here:" ∉ lines →
      parse_include_lines lines = ∅) ∧
    ("End of search list." ∉ lines → parse_include_lines lines = ∅) := by
  refine ⟨fun hA hBpre hBmid => ?_, fun hA => ?_, fun hB => ?_⟩
  · have hsplit : pre ++ "#include <...> search starts here:" ::
        (mid ++ "End of search list." :: post) =
        (pre ++ "#include <...> search starts here:" :: mid) ++
          "End of search list." :: post := by
      simp
    have hBnot : "End of search list." ∉
        pre ++ "#include <...> search starts here:" :: mid := by
      intro hmem
      rcases List.mem_append.1 hmem with h1 | h1
      · exact hBpre h1
      · rcases List.mem_cons.1 h1 with h2 | h2
        · exact absurd h2 (by decide)
        · exact hBmid h2
    have h1 : ((pre ++ "#include <...> search starts here:" :: mid) ++
        "End of search list." :: post).indexOf?
          "#include <...> search starts here:" = some pre.length := by
      rw [← hsplit]
      exact indexOf?_append_cons _ pre _ hA
    have h2 := indexOf?_append_cons "End of search list."
      (pre ++ "#include <...> search starts here:" :: mid) post hBnot
    rw [hsplit, parse_include_lines_eq _ _ _ h1 h2, List.take_left]
    have hsplit2 : pre ++ "#include <...> search starts here:" :: mid =
        (pre ++ ["#include <...> search starts here:"]) ++ mid := by
      simp
    have hlen2 : (pre ++ ["#include <...> search starts here:"]).length =
        pre.length + 1 := by
      simp
    rw [hsplit2, List.drop_left' hlen2]
  · unfold parse_include_lines
    rw [indexOf?_eq_none_of_not_mem _ _ hA]
  · unfold parse_include_lines
    cases hA2 : lines.indexOf? "#include <...> search starts here:" with
    | none => rfl
    | some i => rw [indexOf?_eq_none_of_not_mem _ _ hB]

/-- Witness for C6 on the spec's example trace: a header line, three
indented directory lines between the markers, and a trailing line. -/
theorem C6_include_path_extraction_witness :
    parse_include_lines (["clang version 10"] ++
      "#include <...> search starts here:" ::
      ([" /a", " /b", " /c"] ++ "End of search list." :: ["tail"])) =
      ((([" /a", " /b", " /c"] : List String).map pyStrip).toFinset) :=
  (C6_include_path_extraction ["clang version 10"] [" /a", " /b", " /c"]
    ["tail"] []).1 (by decide) (by decide) (by decide)

/-- C3: header lookup over a path set succeeds with some existing
`<dir>/yogrt.h` whenever at least one directory of the set contains
`yogrt.h`, and raises the descriptive `RuntimeError` exactly when no
directory does; there is no fallback result. The hypothesis states that
the (unspecified) iteration order enumerates the set. -/
theorem C3_header_lookup (fs : Fs) (order : SetOrder) (paths : Finset String)
    (horder : EnumeratesSet order paths) :
    ((∃ d ∈ paths, fs (os_path_join d "yogrt.h") = true) →
      ∃ d ∈ paths, header_search fs order paths = .ok (os_path_join d "yogrt.h") ∧
        fs (os_path_join d "yogrt.h") = true) ∧
    (header_search fs order paths = .error (.runtimeError "Could not find yogrt.h") ↔
      ∀ d ∈ paths, fs (os_path_join d "yogrt.h") = false) := by
  have hmem : ∀ x, x ∈ order paths ↔ x ∈ paths := by
    intro x
    rw [← List.mem_toFinset, horder]
  unfold header_search
  cases hfind : (order paths).find? (fun d => fs (os_path_join d "yogrt.h")) with
  | some d =>
    have hd : fs (os_path_join d "yogrt.h") = true := by
      have h3 := List.find?_some hfind
      simpa using h3
    have hdm : d ∈ paths := (hmem d).1 (List.mem_of_find?_eq_some hfind)
    constructor
    · exact fun _ => ⟨d, hdm, rfl, hd⟩
    · constructor
      · intro h
        exact absurd h (by simp)
      · intro hall
        exact absurd hd (by simp [hall d hdm])
  | none =>
    have hnone : ∀ d ∈ paths, fs (os_path_join d "yogrt.h") = false := by
      intro d hd
      have := List.find?_eq_none.1 hfind d ((hmem d).2 hd)
      simpa using this
    constructor
    · rintro ⟨d, hd, hfs⟩
      exact absurd hfs (by simp [hnone d hd])
    · exact ⟨fun _ => hnone, fun _ => rfl⟩

/-- Witness for C3: a two-directory set where only `/usr/include` holds
the header; lookup returns that header path. -/
theorem C3_header_lookup_witness :
    ∃ d ∈ ({"/usr/include", "/z"} : Finset String),
      header_search (fun p => p = "/usr/include/yogrt.h")
        (fun _ => ["/z", "/usr/include"]) {"/usr/include", "/z"} =
        .ok (os_path_join d "yogrt.h") ∧
      (fun p : String => decide (p = "/usr/include/yogrt.h"))
        (os_path_join d "yogrt.h") = true :=
  (C3_header_lookup (fun p => p = "/usr/include/yogrt.h")
    (fun _ => ["/z", "/usr/include"]) {"/usr/include", "/z"}
    (by unfold EnumeratesSet; decide)).1 (by decide)

/-- C4: library lookup filters the path set to exactly the directories
whose `libyogrt.so` entry exists, returns the full filtered set when it is
non-empty, and raises the descriptive `RuntimeError` exactly when the
filtered set is empty. -/
theorem C4_library_lookup (fs : Fs) (paths : Finset String) :
    (∀ S, lib_search fs paths = .ok S ↔
      (S = paths.filter (fun d => fs (os_path_join d "libyogrt.so")) ∧ S ≠ ∅)) ∧
    (lib_search fs paths = .error (.runtimeError "Could not find libyogrt.so") ↔
      paths.filter (fun d => fs (os_path_join d "libyogrt.so")) = ∅) := by
  have hlib : lib_search fs paths =
      (if paths.filter (fun d => fs (os_path_join d "libyogrt.so")) = ∅ then
        .error (.runtimeError "Could not find libyogrt.so")
      else .ok (paths.filter (fun d => fs (os_path_join d "libyogrt.so")))) := rfl
  rw [hlib]
  by_cases h : paths.filter (fun d => fs (os_path_join d "libyogrt.so")) = ∅
  · rw [if_pos h]
    refine ⟨fun S => ⟨fun hS => absurd hS (fun hc => Except.noConfusion hc),
      fun hS => absurd (hS.1.trans h) hS.2⟩, by simp [h]⟩
  · rw [if_neg h]
    refine ⟨fun S => ⟨fun hS => ⟨(Except.ok.inj hS).symm,
      fun hS0 => h ((Except.ok.inj hS).trans hS0)⟩, fun hS => by rw [hS.1]⟩,
      ⟨fun hbad => absurd hbad (fun hc => Except.noConfusion hc),
       fun h0 => absurd h0 h⟩⟩

/-- Witness for C4: over `{/A, /B}` where only `/B` contains the library,
lookup returns exactly `{/B}`. -/
theorem C4_library_lookup_witness :
    lib_search (fun p => p = "/B/libyogrt.so") {"/A", "/B"} = .ok {"/B"} :=
  ((C4_library_lookup (fun p => p = "/B/libyogrt.so") {"/A", "/B"}).1 {"/B"}).2
    ⟨by decide, by decide⟩

lemma lib_search_eq (fs : Fs) (paths : Finset String) :
    lib_search fs paths =
      (if paths.filter (fun d => fs (os_path_join d "libyogrt.so")) = ∅ then
        .error (.runtimeError "Could not find libyogrt.so")
      else .ok (paths.filter (fun d => fs (os_path_join d "libyogrt.so")))) := rfl

/-- C1 counterexample: the sub-probes of discovery are not all soft. A
missing executable surfaces as an uncaught `OSError`/`FileNotFoundError`
from `subprocess.check_output` in the preprocessor probe, the include-path
probe and the ldconfig probe, and a cache line that begins with
`libyogrt.so ` but lacks the `" => "` separator raises an uncaught
`IndexError` — none of these return `None` or the empty set. -/
theorem C1_counterexample :
    determine_preprocessor (fun _ => .osError) "cc" = .error .osError ∧
    get_compiler_include_paths (fun n => if n = "CC" then some "cc" else none)
      (fun _ => none) (fun _ => .osError) = .error .osError ∧
    get_ldconfig_library_paths (fun _ => .osError) = .error .osError ∧
    get_ldconfig_library_paths (fun _ => .ok "libyogrt.so junk") =
      .error .indexError := by
  exact ⟨rfl, rfl, rfl, by decide⟩

/-- C1 as amended: a subprocess non-zero exit (`CalledProcessError`) and
arbitrary or marker-free output are soft — the preprocessor probe returns
`none`, the parsers return what they parse, and the only exceptions that
can escape the three probe functions are an uncaught `OSError` (missing
executable) and, for the ldconfig parser, an uncaught `IndexError` on a
matching line without the `" => "` separator. -/
theorem C1_soft_failure_amended (run : Run) (compiler : String) (env : Env)
    (which : Which) :
    (run [compiler, "-print-prog-name=cpp"] = .calledProcessError →
      determine_preprocessor run compiler = .ok none) ∧
    (∀ out, run [compiler, "-print-prog-name=cpp"] = .ok out →
      determine_preprocessor run compiler = .ok (some (pyStrip out))) ∧
    (∀ e, determine_preprocessor run compiler = .error e → e = .osError) ∧
    (∀ e, get_compiler_include_paths env which run = .error e → e = .osError) ∧
    (run ["ldconfig", "-p"] = .calledProcessError →
      get_ldconfig_library_paths run = .ok ∅) ∧
    (∀ e, get_ldconfig_library_paths run = .error e →
      e = .osError ∨ e = .indexError) := by
  have h3 : ∀ c e, determine_preprocessor run c = .error e → e = .osError := by
    intro c e h
    unfold determine_preprocessor at h
    cases hr : run [c, "-print-prog-name=cpp"] with
    | ok out => rw [hr] at h; exact absurd h (fun hc => Except.noConfusion hc)
    | calledProcessError => rw [hr] at h; exact absurd h (fun hc => Except.noConfusion hc)
    | osError => rw [hr] at h; exact (Except.error.inj h).symm
  refine ⟨fun h => ?_, fun out h => ?_, h3 compiler, fun e h => ?_, fun h => ?_,
    fun e h => ?_⟩
  · unfold determine_preprocessor
    rw [h]
  · unfold determine_preprocessor
    rw [h]
  · unfold get_compiler_include_paths at h
    cases hdc : determine_compiler env which with
    | none =>
      simp only [hdc] at h
      exact absurd h (fun hc => Except.noConfusion hc)
    | some c =>
      simp only [hdc] at h
      by_cases hce : c = ""
      · rw [if_pos hce] at h
        exact absurd h (fun hc => Except.noConfusion hc)
      · rw [if_neg hce] at h
        cases hdp : determine_preprocessor run c with
        | error e2 =>
          simp only [hdp] at h
          cases Except.error.inj h
          exact h3 c e hdp
        | ok o =>
          cases o with
          | none =>
            rw [hdp] at h
            exact absurd h (fun hc => Except.noConfusion hc)
          | some cpp =>
            rw [hdp] at h
            have h4 : (if cpp = "" then Except.ok (∅ : Finset String)
                else match run [cpp, "-v"] with
                  | SpawnResult.calledProcessError => Except.ok ∅
                  | SpawnResult.osError => Except.error PyExc.osError
                  | SpawnResult.ok output =>
                    Except.ok (parse_include_lines (pySplitLines output))) =
                Except.error e := h
            by_cases hcpp : cpp = ""
            · rw [if_pos hcpp] at h4
              exact absurd h4 (fun hc => Except.noConfusion hc)
            · rw [if_neg hcpp] at h4
              cases hr : run [cpp, "-v"] with
              | ok out =>
                rw [hr] at h4
                exact absurd h4 (fun hc => Except.noConfusion hc)
              | calledProcessError =>
                rw [hr] at h4
                exact absurd h4 (fun hc => Except.noConfusion hc)
              | osError =>
                rw [hr] at h4
                exact (Except.error.inj h4).symm
  · unfold get_ldconfig_library_paths
    rw [h]
  · unfold get_ldconfig_library_paths at h
    cases hr : run ["ldconfig", "-p"] with
    | ok out =>
      rw [hr] at h
      exact Or.inr (parse_ldconfig_lines_error _ e h)
    | calledProcessError => rw [hr] at h; exact absurd h (fun hc => Except.noConfusion hc)
    | osError => rw [hr] at h; exact Or.inl (Except.error.inj h).symm

/-- Witness for the amended C1: a preprocessor probe whose subprocess
exits non-zero yields `none` rather than an exception. -/
theorem C1_soft_failure_amended_witness :
    determine_preprocessor (fun _ => .calledProcessError) "cc" = .ok none :=
  (C1_soft_failure_amended (fun _ => .calledProcessError) "cc" (fun _ => none)
    (fun _ => none)).1 rfl

/-- Subprocess model for C10: `ldconfig -p` reports the shared library
under its full file path, any other invocation fails. -/
def runC10 : Run := fun c =>
  if c = ["ldconfig", "-p"] then .ok "\tlibyogrt.so => /opt/lib/libyogrt.so"
  else .calledProcessError

/-- Filesystem model for C10: only the file `/opt/lib/libyogrt.so`
exists. -/
def fsC10 : Fs := fun p => p = "/opt/lib/libyogrt.so"

/-- Resolver model for C10: only the existing file path resolves (to
itself). -/
def resolveC10 : Resolve := fun p =>
  if p = "/opt/lib/libyogrt.so" then some p else none

/-- C10 (implicit): every directory returned by library lookup satisfies
the `<entry>/libyogrt.so` existence filter, while the ldconfig probe
contributes the library's full file path — so on a host where the library
is discoverable only through the linker cache, lookup still fails: the
probe returns `{/opt/lib/libyogrt.so}`, that file exists, and
`find_yogrt_lib` nevertheless raises `RuntimeError`. -/
theorem C10_ldconfig_path_never_satisfies_filter :
    (∀ (fs : Fs) (paths S : Finset String), lib_search fs paths = .ok S →
      ∀ d ∈ S, fs (os_path_join d "libyogrt.so") = true) ∧
    get_ldconfig_library_paths runC10 = .ok {"/opt/lib/libyogrt.so"} ∧
    fsC10 "/opt/lib/libyogrt.so" = true ∧
    find_yogrt_lib fsC10 resolveC10 (fun _ => none) (fun _ => none) runC10 =
      .error (.runtimeError "Could not find libyogrt.so") := by
  refine ⟨?_, by decide, by decide, by decide⟩
  intro fs paths S hS d hd
  rw [lib_search_eq] at hS
  by_cases h : paths.filter (fun d2 => fs (os_path_join d2 "libyogrt.so")) = ∅
  · rw [if_pos h] at hS
    exact absurd hS (fun hc => Except.noConfusion hc)
  · rw [if_neg h] at hS
    have hSf := (Except.ok.inj hS).symm
    rw [hSf] at hd
    exact (Finset.mem_filter.1 hd).2

/-- Witness for C10's filter clause at a concrete successful lookup. -/
theorem C10_ldconfig_path_never_satisfies_filter_witness :
    (fun p : String => (p = "/B/libyogrt.so" : Bool))
      (os_path_join "/B" "libyogrt.so") = true :=
  C10_ldconfig_path_never_satisfies_filter.1 (fun p => p = "/B/libyogrt.so")
    {"/B"} {"/B"} (by decide) "/B" (by decide)
